import Mathlib

/-!
Verification of the adbstatus device-state reconciliation core.

The definitions below are a shallow embedding of the Python sources:
`adbstatus/core.py` (device enumerator), `adbstatus/monitor.py`
(rule matcher, action executor, reconciliation cycle, sleep/wake
handlers) and `adbstatus/sleep_monitor.py` together with the legacy
`sleep_monitor.py` (the sleep/wake bridge).  External effects
(subprocess runs, the process table, the filesystem) are passed in
explicitly as outcome parameters or state records, so every function
is executable and every branch of the Python code is mirrored by a
branch here.
-/

namespace ADBStatus

/-- A Python dict from attribute name to string value, as an association
list.  `dictSet` mirrors `d[k] = v` (the old binding for `k`, if any, is
replaced), `dictGet` mirrors `d.get(k)` / `k in d`. -/
abbrev Dict := List (String × String)

def dictGet : Dict → String → Option String
  | [], _ => none
  | (a, b) :: rest, k => if k = a then some b else dictGet rest k

def dictSet : Dict → String → String → Dict
  | [], k, v => [(k, v)]
  | (a, b) :: rest, k, v =>
    if a = k then dictSet rest k v else (a, b) :: dictSet rest k v

/-- `device['serial']`; enumerator records always carry the key. -/
def serialOf (d : Dict) : String := (dictGet d "serial").getD ""

def serials (devices : List Dict) : List String := devices.map serialOf

/-! ## String primitives

The Python string operations the core uses (`str.strip`, `str.split`,
`str.splitlines`, `str.split(':', 1)`, `int(...)`) are modelled by
structurally recursive functions over the character list, so that every
definition evaluates inside the kernel. -/

/-- `s.strip()`: drop leading and trailing whitespace. -/
def pyStrip (s : String) : String :=
  .mk (((s.data.dropWhile Char.isWhitespace).reverse.dropWhile
    Char.isWhitespace).reverse)

/-- Split a character list at newlines (a trailing newline yields a
final empty chunk; the callers discard blank lines anyway). -/
def breakLines : List Char → List (List Char)
  | [] => [[]]
  | c :: rest =>
    match breakLines rest with
    | [] => [[c]]
    | l :: ls => if c = '\n' then [] :: l :: ls else (c :: l) :: ls

/-- `stdout.splitlines()` as the callers consume it. -/
def pyLines (s : String) : List String := (breakLines s.data).map String.mk

/-- `if line.strip():` — the blank-line test. -/
def isBlank (l : String) : Bool := (pyStrip l).data.isEmpty

/-- Accumulating pass of `line.split()`. -/
def wordsAux : List Char → List Char → List (List Char)
  | [], cur => if cur.isEmpty then [] else [cur.reverse]
  | c :: rest, cur =>
    if c.isWhitespace then
      if cur.isEmpty then wordsAux rest [] else cur.reverse :: wordsAux rest []
    else wordsAux rest (c :: cur)

/-- `line.split()`: whitespace-delimited tokens, empties discarded. -/
def tokensOf (line : String) : List String :=
  (wordsAux line.data []).map String.mk

/-- The characters before and after the first `:`. -/
def breakColon : List Char → List Char × List Char
  | [] => ([], [])
  | c :: rest =>
    if c = ':' then ([], rest)
    else
      match breakColon rest with
      | (before, after) => (c :: before, after)

/-- `part.split(':', 1)`: key before the first colon, value after it. -/
def splitColon (t : String) : String × String :=
  (.mk (breakColon t.data).1, .mk (breakColon t.data).2)

/-- `':' in part`. -/
def hasColon (t : String) : Bool := t.data.contains ':'

/-- `int(content.strip())` on a decimal literal with optional sign;
`none` is the `ValueError` case. -/
def digitsVal : List Char → Nat → Option Nat
  | [], acc => some acc
  | c :: rest, acc =>
    if c.isDigit then digitsVal rest (acc * 10 + (c.toNat - 48)) else none

def pyInt (s : String) : Option Int :=
  match (pyStrip s).data with
  | [] => none
  | '-' :: rest =>
    if rest.isEmpty then none
    else (digitsVal rest 0).map (fun n => -(n : Int))
  | '+' :: rest =>
    if rest.isEmpty then none
    else (digitsVal rest 0).map (fun n => (n : Int))
  | l => (digitsVal l 0).map (fun n => (n : Int))

/-! ## Device enumerator (`ADBStatus.get_devices`, core.py) -/

/-- Outcome of `subprocess.run(["adb", "devices", "-l"], ...)`:
a completed process with its exit code and stdout, a
`subprocess.SubprocessError` raised by the subprocess library, or an
`OSError` (e.g. `FileNotFoundError` when the executable is missing,
raised while spawning).  Only the second is caught by the
`except subprocess.SubprocessError` clause in the source. -/
inductive RunResult where
  | completed (returncode : Int) (stdout : String)
  | subprocessError (msg : String)
  | osError (msg : String)
deriving DecidableEq

/-- Fold of the `for part in parts[2:]` loop merging `key:value` tokens. -/
def applyExtras (extras : List String) (d : Dict) : Dict :=
  extras.foldl
    (fun d t =>
      if hasColon t then dictSet d (splitColon t).1 (splitColon t).2 else d)
    d

/-- One line of the device table: `parts[0]`/`parts[1]` raise IndexError
when fewer than two tokens are present (the line is already known to be
non-blank). -/
def parse_device_line (line : String) : Except String Dict :=
  match tokensOf line with
  | p0 :: p1 :: rest => .ok (applyExtras rest [("serial", p0), ("state", p1)])
  | _ => .error "IndexError: list index out of range"

/-- The `for line in adb_output.stdout.splitlines()[1:]` loop keeps the
non-blank lines after the discarded header. -/
def deviceLines (out : String) : List String :=
  ((pyLines out).drop 1).filter (fun l => !isBlank l)

/-- The parse loop appends one record per line; an exception aborts it. -/
def parse_lines : List String → Except String (List Dict)
  | [] => .ok []
  | l :: rest => do
    let d ← parse_device_line l
    let ds ← parse_lines rest
    pure (d :: ds)

/-- `ADBStatus.get_devices` (core.py): non-zero exit returns `[]`,
`subprocess.SubprocessError` is caught and returns `[]`, any other
exception (OSError while spawning, IndexError while parsing)
propagates to the caller as `.error`. -/
def get_devices (r : RunResult) : Except String (List Dict) :=
  match r with
  | .completed rc out => if rc ≠ 0 then .ok [] else parse_lines (deviceLines out)
  | .subprocessError _ => .ok []
  | .osError e => .error e

/-! ## Rule matcher (`get_matching_configs`, monitor.py) -/

/-- A configured rule: the optional `device` selector
(`config.get('device', {})`) and the action scripts keyed by action
category (`connect` / `disconnect` / `sleep` / `wake`). -/
structure Rule where
  device : Dict
  actions : Dict
deriving DecidableEq

/-- The per-rule test of `get_matching_configs`: an empty selector
matches every device; otherwise every selector entry must be present in
the record with an equal value. -/
def matches_device (device : Dict) (device_config : Dict) : Bool :=
  if device_config.isEmpty then true
  else device_config.all (fun kv =>
    match dictGet device kv.1 with
    | none => false
    | some v => v = kv.2)

def get_matching_configs (device : Dict) (config_list : List Rule) : List Rule :=
  config_list.filter (fun c => matches_device device c.device)

/-! ## Action executor (`run_unique_scripts`, monitor.py) -/

/-- Outcome of `subprocess.run(['bash', '-c', script], ...)`: a completed
process (exit code, stdout, stderr) or an exception raised while
spawning/executing. -/
inductive ExecOutcome where
  | completed (returncode : Int) (stdout : String) (stderr : String)
  | exn (msg : String)
deriving DecidableEq

/-- The try/except body of `run_unique_scripts` for one script:
exit 0 yields the success string, non-zero the failure string with the
stripped stderr, an exception the error string with the exception text.
All three are returned, none is re-raised. -/
def runScriptResult (action_type : String) (ex : String → ExecOutcome)
    (script : String) : String :=
  match ex script with
  | .completed rc _ stderr =>
    if rc = 0 then action_type ++ " action successful"
    else action_type ++ " action failed: " ++ pyStrip stderr
  | .exn e => action_type ++ " action error: " ++ e

/-- The `for config in configs` loop of `run_unique_scripts`, threading
the `seen_scripts` set: a missing or empty script (`if not script`) and
an already-seen script are skipped. -/
def run_unique_scripts_go (ex : String → ExecOutcome) (action_type : String) :
    List Rule → List String → List String
  | [], _ => []
  | c :: rest, seen =>
    match dictGet c.actions action_type with
    | none => run_unique_scripts_go ex action_type rest seen
    | some script =>
      if script = "" ∨ script ∈ seen then
        run_unique_scripts_go ex action_type rest seen
      else
        runScriptResult action_type ex script ::
          run_unique_scripts_go ex action_type rest (script :: seen)

def run_unique_scripts (ex : String → ExecOutcome) (configs : List Rule)
    (action_type : String) : List String :=
  run_unique_scripts_go ex action_type configs []

/-- The stream of scripts the loop considers running: each rule's script
for the category, with absent (`None`) and empty ones dropped. -/
def scriptsOf (configs : List Rule) (action_type : String) : List String :=
  configs.filterMap (fun c =>
    match dictGet c.actions action_type with
    | none => none
    | some s => if s = "" then none else some s)

/-- Specification-side dedup: keep the first occurrence of each element. -/
def dedupFirst : List String → List String
  | [] => []
  | x :: xs => x :: (dedupFirst xs).filter (fun y => decide (y ≠ x))

/-! ## Reconciliation cycle (`check_devices`, monitor.py) -/

/-- Observable outcome of one `check_devices` cycle: the connect events
(serial, full record, script results), the disconnect events (serial,
script results; the record is the synthetic `{'serial': serial}`), and
the new `known_devices` contents. -/
structure CheckResult where
  connects : List (String × Dict × List String)
  disconnects : List (String × List String)
  known : List String
deriving DecidableEq

/-- `ADBStatusMonitor.check_devices`: the first loop adds every current
serial and fires connect handling for serials not in `known_devices`;
the second fires disconnect handling for `known_devices -
current_devices` with the synthetic record; finally `known_devices`
is replaced wholesale by the current serial set. -/
def check_devices (ex : String → ExecOutcome) (cfg : List Rule)
    (known : List String) (devices : List Dict) : CheckResult :=
  let current := serials devices
  { connects :=
      (devices.filter (fun d => decide (serialOf d ∉ known))).map
        (fun d => (serialOf d, d,
          run_unique_scripts ex (get_matching_configs d cfg) "connect"))
    disconnects :=
      (known.filter (fun s => decide (s ∉ current))).map
        (fun s => (s,
          run_unique_scripts ex (get_matching_configs [("serial", s)] cfg)
            "disconnect"))
    known := current }

/-! ## Sleep/wake handlers of the monitor (`_handle_sleep` / `_handle_wake`) -/

/-- The monitor's only cross-cycle mutable state. -/
structure MonitorState where
  known_devices : List String
deriving DecidableEq

/-- `ADBStatusMonitor._handle_sleep`: re-enumerates the full current
device list and routes each record through matcher and executor for the
`sleep` category; `known_devices` is neither read nor written, so the
state component is returned unchanged. -/
def monitor_handle_sleep (ex : String → ExecOutcome) (cfg : List Rule)
    (st : MonitorState) (devices : List Dict) :
    MonitorState × List (String × List String) :=
  (st, devices.map (fun d =>
    (serialOf d, run_unique_scripts ex (get_matching_configs d cfg) "sleep")))

/-- `ADBStatusMonitor._handle_wake`, same shape for the `wake` category. -/
def monitor_handle_wake (ex : String → ExecOutcome) (cfg : List Rule)
    (st : MonitorState) (devices : List Dict) :
    MonitorState × List (String × List String) :=
  (st, devices.map (fun d =>
    (serialOf d, run_unique_scripts ex (get_matching_configs d cfg) "wake")))

/-! ## Sleep/wake bridge: singleton start (`ADBStatusSleepMonitor`) -/

/-- The external facts `start` consults: `psutil.pid_exists`, the result
of locating the `sleepwatcher` executable (`which` plus the Homebrew
fallbacks), and the outcome of `subprocess.Popen` (the spawned helper's
pid, or `none` when spawning raises). -/
structure SysEnv where
  pid_exists : Int → Bool
  sleepwatcher_path : Option String
  spawn : Option Int

/-- `ADBStatusSleepMonitor._is_already_running`: when the PID file
exists its content is parsed with `int(...)` (a `ValueError` is caught
and ignored) and the pid is checked with `psutil.pid_exists`.  The
check reads the file but never removes it. -/
def is_already_running (pid_file : Option String) (env : SysEnv) : Bool :=
  match pid_file with
  | none => false
  | some content =>
    match pyInt content with
    | none => false
    | some pid => env.pid_exists pid

/-- What a `start` attempt did: its boolean return value, whether a
helper process was spawned, and the PID file content afterwards. -/
structure StartResult where
  ok : Bool
  spawned : Bool
  pid_file : Option String
deriving DecidableEq

/-- `ADBStatusSleepMonitor.start`: refuse when already `_running` or
when `_is_already_running` holds; fail when no sleepwatcher executable
is found (`FileNotFoundError` caught) or when `Popen` raises (generic
`except` caught); otherwise spawn the helper and write its pid to the
PID file.  No branch removes an existing PID file. -/
def sleep_monitor_start (running : Bool) (pid_file : Option String)
    (env : SysEnv) : StartResult :=
  if running then ⟨false, false, pid_file⟩
  else if is_already_running pid_file env then ⟨false, false, pid_file⟩
  else
    match env.sleepwatcher_path with
    | none => ⟨false, false, pid_file⟩
    | some _ =>
      match env.spawn with
      | none => ⟨false, false, pid_file⟩
      | some pid => ⟨true, true, some (toString pid)⟩

/-! ## Sleep/wake bridge: event-poll loop (`_check_for_events`) -/

/-- Behaviour of one registered callback invocation: it returns, or it
raises with the given message. -/
inductive CbOutcome where
  | ok
  | raises (msg : String)
deriving DecidableEq

/-- Invoking the callback, with raising modelled as `.error`. -/
def runCallback : CbOutcome → Except String Unit
  | .ok => .ok ()
  | .raises m => .error m

/-- `ADBStatusSleepMonitor._handle_sleep`: log, then invoke the sleep
callback inside `try/except Exception`; a raise is logged and not
re-raised.  The result is the log lines the call produced. -/
def handle_sleep_cb (cb : CbOutcome) : Except String (List String) := do
  let errs ← Except.tryCatch
    (do
      let _ ← runCallback cb
      pure ([] : List String))
    (fun e => pure ["Error in sleep callback: " ++ e])
  pure ("System going to sleep" :: errs)

/-- `ADBStatusSleepMonitor._handle_wake`, same shape. -/
def handle_wake_cb (cb : CbOutcome) : Except String (List String) := do
  let errs ← Except.tryCatch
    (do
      let _ ← runCallback cb
      pure ([] : List String))
    (fun e => pure ["Error in wake callback: " ++ e])
  pure ("System waking up" :: errs)

/-- External input to one iteration of the poll loop: whether the
helper dropped a sleep/wake marker file since the last look, and how
each registered callback would behave if invoked now. -/
structure PollInput where
  sleepArrives : Bool
  wakeArrives : Bool
  sleepCb : CbOutcome
  wakeCb : CbOutcome

/-- State the poll loop can observe and change: the `_running` flag,
the two marker files, and the log. -/
structure PollState where
  running : Bool
  sleepMarker : Bool
  wakeMarker : Bool
  log : List String
deriving DecidableEq

/-- One iteration of the `while self._running` body of
`_check_for_events`: each marker present is deleted and its handler
invoked (the handler catches callback exceptions). -/
def check_events_once (inp : PollInput) (st : PollState) :
    Except String PollState := do
  let st1 : PollState :=
    { st with sleepMarker := st.sleepMarker || inp.sleepArrives,
              wakeMarker := st.wakeMarker || inp.wakeArrives }
  let st2 ←
    if st1.sleepMarker then do
      let logs ← handle_sleep_cb inp.sleepCb
      pure { st1 with sleepMarker := false, log := st1.log ++ logs }
    else pure st1
  if st2.wakeMarker then do
    let logs ← handle_wake_cb inp.wakeCb
    pure { st2 with wakeMarker := false, log := st2.log ++ logs }
  else pure st2

/-- The poll loop over a finite trace of iteration inputs: it keeps
iterating while `_running` is set (an uncaught exception would abort it
as `.error`). -/
def check_for_events : List PollInput → PollState → Except String PollState
  | [], st => .ok st
  | inp :: rest, st =>
    if st.running then do
      let st' ← check_events_once inp st
      check_for_events rest st'
    else .ok st

/-! ## Sleep/wake bridge: stop (`SleepMonitor.stop`, sleep_monitor.py) -/

/-- The bridge state `stop` can touch: the `_running` flag, the PID
file, the helper process handle, the generated scripts directory, and
the atexit registration. -/
structure SMState where
  running : Bool
  pid_file_exists : Bool
  process : Option Int
  temp_dir : Bool
  atexit_registered : Bool
deriving DecidableEq

/-- `SleepMonitor.stop`: an early `return` when `_running` is already
clear; otherwise clear the flag, remove the PID file, terminate the
helper, clean up the scripts and unregister the exit hook.  Every
failure inside is swallowed by a local try/except. -/
def sleep_monitor_stop (st : SMState) : SMState :=
  if !st.running then st
  else
    { running := false, pid_file_exists := false, process := none,
      temp_dir := false, atexit_registered := false }

/-! ## Helper lemmas -/

theorem matches_device_iff (device dc : Dict) :
    matches_device device dc = true ↔ ∀ kv ∈ dc, dictGet device kv.1 = some kv.2 := by
  unfold matches_device
  rcases dc with _ | ⟨kv, rest⟩
  · simp
  · rw [if_neg (by simp)]
    rw [List.all_eq_true]
    constructor
    · intro h kv' hkv'
      have := h kv' hkv'
      cases hget : dictGet device kv'.1 with
      | none => rw [hget] at this; simp at this
      | some v =>
        rw [hget] at this
        simp only [decide_eq_true_eq] at this
        rw [this]
    · intro h kv' hkv'
      rw [h kv' hkv']
      simp

theorem dictGet_singleton (a b k : String) :
    dictGet [(a, b)] k = if k = a then some b else none := by
  simp [dictGet]

/-- C2: for every device record and rule list the matcher returns
exactly the rules whose selector entries are all present in the record
with equal values, preserving input order; an empty selector always
matches; and against the synthetic disconnect record `{'serial': s}`
no rule whose selector mentions a key other than `serial` is returned. -/
theorem claim_C2_rule_matcher (device : Dict) (rules : List Rule) :
    (∀ r, r ∈ get_matching_configs device rules ↔
      (r ∈ rules ∧ ∀ kv ∈ r.device, dictGet device kv.1 = some kv.2)) ∧
    (get_matching_configs device rules).Sublist rules ∧
    (∀ r, r ∈ rules → r.device = [] → r ∈ get_matching_configs device rules) ∧
    (∀ (s : String) (r : Rule), r ∈ get_matching_configs [("serial", s)] rules →
      ∀ kv ∈ r.device, kv.1 = "serial") := by
  refine ⟨?_, ?_, ?_, ?_⟩
  · intro r
    rw [get_matching_configs, List.mem_filter, matches_device_iff]
  · exact List.filter_sublist rules
  · intro r hr hdev
    rw [get_matching_configs, List.mem_filter, matches_device_iff]
    exact ⟨hr, by simp [hdev]⟩
  · intro s r hr kv hkv
    rw [get_matching_configs, List.mem_filter, matches_device_iff] at hr
    have := hr.2 kv hkv
    by_contra hne
    rw [dictGet_singleton, if_neg hne] at this
    cases this

theorem claim_C2_witness :
    (⟨[], []⟩ : Rule) ∈ get_matching_configs [("serial", "S1")]
      [⟨[("model", "Pixel")], []⟩, ⟨[], []⟩] := by
  have h := claim_C2_rule_matcher [("serial", "S1")]
    [⟨[("model", "Pixel")], []⟩, ⟨[], []⟩]
  exact h.2.2.1 ⟨[], []⟩ (by simp) rfl

theorem mem_dedupFirst (a : String) (l : List String) :
    a ∈ dedupFirst l ↔ a ∈ l := by
  induction l with
  | nil => simp [dedupFirst]
  | cons x xs ih =>
    by_cases hax : a = x
    · subst hax; simp [dedupFirst]
    · simp [dedupFirst, List.mem_filter, hax, ih]

theorem nodup_dedupFirst (l : List String) : (dedupFirst l).Nodup := by
  induction l with
  | nil => simp [dedupFirst]
  | cons x xs ih =>
    rw [dedupFirst]
    refine List.Nodup.cons ?_ (ih.filter _)
    intro hx
    have hpx := List.of_mem_filter hx
    simp at hpx

theorem dedupFirst_sublist (l : List String) : (dedupFirst l).Sublist l := by
  induction l with
  | nil => simp [dedupFirst]
  | cons x xs ih =>
    rw [dedupFirst]
    exact List.Sublist.cons₂ x
      ((@List.filter_sublist _ (fun y => decide (y ≠ x)) (dedupFirst xs)).trans ih)

theorem filter_notMem_cons (X : List String) (x : String) (seen : List String) :
    (X.filter (fun y => decide (y ≠ x))).filter (fun y => decide (y ∉ seen)) =
      X.filter (fun y => decide (y ∉ x :: seen)) := by
  rw [List.filter_filter]
  apply List.filter_congr
  intro y _
  by_cases h1 : y ∈ seen <;> by_cases h2 : y = x <;> simp [h1, h2]

theorem filter_notMem_cons_of_mem (X : List String) (x : String)
    (seen : List String) (hx : x ∈ seen) :
    X.filter (fun y => decide (y ∉ x :: seen)) =
      X.filter (fun y => decide (y ∉ seen)) := by
  apply List.filter_congr
  intro y _
  by_cases h1 : y ∈ seen
  · simp [h1]
  · have h2 : y ≠ x := by rintro rfl; exact h1 hx
    simp [h1, h2]

theorem run_unique_scripts_go_eq (ex : String → ExecOutcome)
    (action_type : String) (configs : List Rule) :
    ∀ seen, run_unique_scripts_go ex action_type configs seen =
      ((dedupFirst (scriptsOf configs action_type)).filter
        (fun s => decide (s ∉ seen))).map (runScriptResult action_type ex) := by
  induction configs with
  | nil => intro seen; simp [run_unique_scripts_go, scriptsOf, dedupFirst]
  | cons c rest ih =>
    intro seen
    cases hget : dictGet c.actions action_type with
    | none =>
      simp only [run_unique_scripts_go, hget]
      rw [ih seen]
      have : scriptsOf (c :: rest) action_type = scriptsOf rest action_type := by
        simp [scriptsOf, List.filterMap_cons, hget]
      rw [this]
    | some script =>
      simp only [run_unique_scripts_go, hget]
      by_cases hempty : script = ""
      · rw [if_pos (Or.inl hempty), ih seen]
        have : scriptsOf (c :: rest) action_type = scriptsOf rest action_type := by
          simp [scriptsOf, List.filterMap_cons, hget, hempty]
        rw [this]
      · have hsc : scriptsOf (c :: rest) action_type =
            script :: scriptsOf rest action_type := by
          simp [scriptsOf, List.filterMap_cons, hget, hempty]
        by_cases hseen : script ∈ seen
        · rw [if_pos (Or.inr hseen), ih seen, hsc, dedupFirst,
            List.filter_cons, if_neg (by simp [hseen]),
            filter_notMem_cons, filter_notMem_cons_of_mem _ _ _ hseen]
        · rw [if_neg (by tauto), ih (script :: seen), hsc, dedupFirst,
            List.filter_cons, if_pos (by simp [hseen]),
            List.map_cons, filter_notMem_cons]

theorem run_unique_scripts_eq (ex : String → ExecOutcome) (configs : List Rule)
    (action_type : String) :
    run_unique_scripts ex configs action_type =
      (dedupFirst (scriptsOf configs action_type)).map
        (runScriptResult action_type ex) := by
  rw [run_unique_scripts, run_unique_scripts_go_eq]
  congr 1
  apply List.filter_eq_self.mpr
  intro y _
  simp

/-- C3: the executor runs each distinct non-empty script text at most
once per invocation and returns exactly one result per distinct
executed script, in first-occurrence order: the result list is exactly
the first-occurrence dedup of the matched rules' script stream, mapped
through one execution each; that dedup has no duplicates, is a sublist
of the stream (order preserved) and covers every script of the stream. -/
theorem claim_C3_executor_dedup (ex : String → ExecOutcome)
    (configs : List Rule) (action_type : String) :
    run_unique_scripts ex configs action_type =
      (dedupFirst (scriptsOf configs action_type)).map
        (runScriptResult action_type ex) ∧
    (dedupFirst (scriptsOf configs action_type)).Nodup ∧
    (dedupFirst (scriptsOf configs action_type)).Sublist
      (scriptsOf configs action_type) ∧
    (∀ s, s ∈ dedupFirst (scriptsOf configs action_type) ↔
      s ∈ scriptsOf configs action_type) := by
  exact ⟨run_unique_scripts_eq ex configs action_type,
    nodup_dedupFirst _, dedupFirst_sublist _,
    fun s => mem_dedupFirst s _⟩

theorem claim_C3_witness :
    run_unique_scripts (fun _ => ExecOutcome.completed 0 "" "")
      [⟨[], [("connect", "echo a")]⟩, ⟨[("model", "Pixel")], [("connect", "echo a")]⟩]
      "connect" = ["connect action successful"] := by
  rw [(claim_C3_executor_dedup (fun _ => ExecOutcome.completed 0 "" "")
    [⟨[], [("connect", "echo a")]⟩, ⟨[("model", "Pixel")], [("connect", "echo a")]⟩]
    "connect").1]
  rfl

/-- C4: every executed script yields exactly one of three returned
result strings — success on exit code 0, failure carrying the stripped
stderr text on a non-zero exit (in particular exit 1 with stderr "boom"
yields a string containing "boom"), and an error carrying the
exception text when spawning fails — and every entry of the executor's
result list has one of these three shapes, so no outcome aborts the
caller's loop. -/
theorem claim_C4_executor_result_shapes (ex : String → ExecOutcome)
    (action_type script : String) (rc : Int) (out err e : String)
    (configs : List Rule) :
    (ex script = .completed 0 out err →
      runScriptResult action_type ex script =
        action_type ++ " action successful") ∧
    (ex script = .completed rc out err → rc ≠ 0 →
      runScriptResult action_type ex script =
        action_type ++ " action failed: " ++ pyStrip err) ∧
    (ex script = .exn e →
      runScriptResult action_type ex script =
        action_type ++ " action error: " ++ e) ∧
    (ex script = .completed 1 out "boom" →
      ∃ p q, runScriptResult action_type ex script = p ++ "boom" ++ q) ∧
    (∀ r ∈ run_unique_scripts ex configs action_type,
      r = action_type ++ " action successful" ∨
      (∃ msg, r = action_type ++ " action failed: " ++ msg) ∨
      (∃ msg, r = action_type ++ " action error: " ++ msg)) := by
  refine ⟨?_, ?_, ?_, ?_, ?_⟩
  · intro h; simp [runScriptResult, h]
  · intro h hrc; simp [runScriptResult, h, hrc]
  · intro h; simp [runScriptResult, h]
  · intro h
    refine ⟨action_type ++ " action failed: ", "", ?_⟩
    simp [runScriptResult, h]
    rw [show (pyStrip "boom" = "boom") from by decide]
  · intro r hr
    rw [run_unique_scripts_eq] at hr
    obtain ⟨s, _, rfl⟩ := List.mem_map.mp hr
    unfold runScriptResult
    cases hex : ex s with
    | completed rc2 out2 err2 =>
      by_cases hrc : rc2 = 0
      · left; simp [hrc]
      · right; left; exact ⟨pyStrip err2, by simp [hrc]⟩
    | exn m => right; right; exact ⟨m, rfl⟩

theorem claim_C4_witness :
    runScriptResult "connect" (fun _ => ExecOutcome.completed 1 "" "boom") "s" =
      "connect" ++ " action failed: " ++ pyStrip "boom" := by
  exact (claim_C4_executor_result_shapes
    (fun _ => ExecOutcome.completed 1 "" "boom") "connect" "s" 1 "" "boom" "e"
    []).2.1 rfl (by decide)

/-- C1: one reconciliation cycle fires Connect exactly for the serials
of the current poll that are not in the known set, Disconnect exactly
for the known serials no longer present, nothing for serials present in
both, and replaces the known set by the current serial set; with the
per-poll uniqueness invariant the events are one per serial, and an
unchanged device list yields zero events. -/
theorem claim_C1_reconciliation_diff (ex : String → ExecOutcome)
    (cfg : List Rule) (known : List String) (devices : List Dict) :
    (∀ s, s ∈ (check_devices ex cfg known devices).connects.map
        (fun p => p.1) ↔ (s ∈ serials devices ∧ s ∉ known)) ∧
    (∀ s, s ∈ (check_devices ex cfg known devices).disconnects.map
        (fun p => p.1) ↔ (s ∈ known ∧ s ∉ serials devices)) ∧
    (∀ s, s ∈ known → s ∈ serials devices →
      s ∉ (check_devices ex cfg known devices).connects.map (fun p => p.1) ∧
      s ∉ (check_devices ex cfg known devices).disconnects.map (fun p => p.1)) ∧
    (∀ s, s ∈ (check_devices ex cfg known devices).known ↔
      s ∈ serials devices) ∧
    ((serials devices).Nodup →
      ((check_devices ex cfg known devices).connects.map (fun p => p.1)).Nodup) ∧
    (known.Nodup →
      ((check_devices ex cfg known devices).disconnects.map
        (fun p => p.1)).Nodup) ∧
    ((∀ s, s ∈ known ↔ s ∈ serials devices) →
      (check_devices ex cfg known devices).connects = [] ∧
      (check_devices ex cfg known devices).disconnects = []) := by
  have hc : (check_devices ex cfg known devices).connects.map (fun p => p.1) =
      (devices.filter (fun d => decide (serialOf d ∉ known))).map serialOf := by
    simp [check_devices, List.map_map]
  have hd : (check_devices ex cfg known devices).disconnects.map (fun p => p.1) =
      known.filter (fun s => decide (s ∉ serials devices)) := by
    simp [check_devices, List.map_map, Function.comp_def]
  have hmc : ∀ s, s ∈ (check_devices ex cfg known devices).connects.map
      (fun p => p.1) ↔ (s ∈ serials devices ∧ s ∉ known) := by
    intro s
    rw [hc]
    simp only [List.mem_map, List.mem_filter, decide_eq_true_eq, serials]
    constructor
    · rintro ⟨d, ⟨hd1, hd2⟩, rfl⟩
      exact ⟨⟨d, hd1, rfl⟩, hd2⟩
    · rintro ⟨⟨d, hd1, rfl⟩, hs⟩
      exact ⟨d, ⟨hd1, hs⟩, rfl⟩
  have hmd : ∀ s, s ∈ (check_devices ex cfg known devices).disconnects.map
      (fun p => p.1) ↔ (s ∈ known ∧ s ∉ serials devices) := by
    intro s
    rw [hd]
    simp [List.mem_filter]
  refine ⟨hmc, hmd, ?_, ?_, ?_, ?_, ?_⟩
  · intro s hk hser
    constructor
    · intro hmem
      exact ((hmc s).mp hmem).2 hk
    · intro hmem
      exact ((hmd s).mp hmem).2 hser
  · intro s
    simp [check_devices]
  · intro hnd
    rw [hc]
    exact List.Nodup.sublist
      (List.Sublist.map serialOf (List.filter_sublist devices)) hnd
  · intro hnd
    rw [hd]
    exact List.Nodup.sublist (List.filter_sublist known) hnd
  · intro h
    constructor
    · simp only [check_devices]
      simp
      intro d hdev
      exact (h (serialOf d)).mpr (List.mem_map_of_mem serialOf hdev)
    · simp only [check_devices]
      simp
      intro s hk
      exact (h s).mp hk

theorem claim_C1_witness :
    (check_devices (fun _ => ExecOutcome.exn "E") [] ["A"]
      [[("serial", "A"), ("state", "device")]]).connects = [] ∧
    (check_devices (fun _ => ExecOutcome.exn "E") [] ["A"]
      [[("serial", "A"), ("state", "device")]]).disconnects = [] := by
  have h := claim_C1_reconciliation_diff (fun _ => ExecOutcome.exn "E") [] ["A"]
    [[("serial", "A"), ("state", "device")]]
  refine h.2.2.2.2.2.2 ?_
  have hser : serials [[("serial", "A"), ("state", "device")]] = ["A"] := by decide
  rw [hser]
  exact fun s => Iff.rfl

/-- C5 counterexample: when spawning the listing command fails
(`FileNotFoundError`, an `OSError`), `get_devices` does not return an
empty list — the exception is not a `subprocess.SubprocessError`, so
the `except` clause does not catch it and it propagates. -/
theorem claim_C5_counterexample :
    get_devices (.osError "FileNotFoundError: adb not found") =
      .error "FileNotFoundError: adb not found" ∧
    get_devices (.osError "FileNotFoundError: adb not found") ≠ .ok [] :=
  ⟨rfl, fun h => Except.noConfusion h⟩

/-- C5 (amended): a non-zero exit of the listing command and a
`subprocess.SubprocessError` both yield an empty device list with no
error propagated; a spawn failure (`OSError`) is not caught and
propagates to the caller. -/
theorem claim_C5_enumerator_failure (rc : Int) (m out : String) :
    (rc ≠ 0 → get_devices (.completed rc out) = .ok []) ∧
    get_devices (.subprocessError m) = .ok [] ∧
    get_devices (.osError m) = .error m := by
  refine ⟨?_, rfl, rfl⟩
  intro h
  simp [get_devices, h]

theorem claim_C5_witness :
    get_devices (.completed 1 "whatever") = .ok [] :=
  (claim_C5_enumerator_failure 1 "" "whatever").1 (by decide)

/-- C6 counterexample: with a PID file naming a dead process (pid 4242,
not alive) the check reports not-running, but the stale PID file is
left in place — here start proceeds past the singleton check, fails to
locate the helper, and the stale file is still present afterwards,
contradicting the claim that it is removed. -/
theorem claim_C6_counterexample :
    is_already_running (some "4242") ⟨fun _ => false, none, none⟩ = false ∧
    sleep_monitor_start false (some "4242") ⟨fun _ => false, none, none⟩ =
      ⟨false, false, some "4242"⟩ :=
  ⟨rfl, rfl⟩

/-- C6 (amended): when the PID file names a live process (verified by
`psutil.pid_exists`), start returns failure, spawns no helper and
leaves all state untouched; when it names a dead process the check
reports not-running and start proceeds — without removing the stale
file, which is only overwritten if a helper is successfully spawned. -/
theorem claim_C6_singleton_start (c : String) (pid : Int) (env : SysEnv)
    (p : String) (q : Int) :
    (pyInt c = some pid → env.pid_exists pid = true →
      sleep_monitor_start false (some c) env = ⟨false, false, some c⟩) ∧
    (pyInt c = some pid → env.pid_exists pid = false →
      is_already_running (some c) env = false ∧
      (env.sleepwatcher_path = some p → env.spawn = some q →
        sleep_monitor_start false (some c) env =
          ⟨true, true, some (toString q)⟩)) := by
  constructor
  · intro hp he
    have hrun : is_already_running (some c) env = true := by
      simp [is_already_running, hp, he]
    simp [sleep_monitor_start, hrun]
  · intro hp he
    have hrun : is_already_running (some c) env = false := by
      simp [is_already_running, hp, he]
    refine ⟨hrun, ?_⟩
    intro hpath hspawn
    simp [sleep_monitor_start, hrun, hpath, hspawn]

theorem claim_C6_witness :
    sleep_monitor_start false (some "7") ⟨fun _ => true, none, none⟩ =
      ⟨false, false, some "7"⟩ :=
  (claim_C6_singleton_start "7" 7 ⟨fun _ => true, none, none⟩ "x" 0).1
    (by decide) rfl

/-- C8: handling a Sleep or Wake event leaves the known-device set
unchanged, its output does not depend on that set in any way, and it
performs exactly one matcher-plus-executor pass per device of the
freshly re-enumerated current list. -/
theorem claim_C8_sleep_wake_frame (ex : String → ExecOutcome)
    (cfg : List Rule) (st st' : MonitorState) (devices : List Dict) :
    (monitor_handle_sleep ex cfg st devices).1 = st ∧
    (monitor_handle_wake ex cfg st devices).1 = st ∧
    (monitor_handle_sleep ex cfg st devices).2 =
      (monitor_handle_sleep ex cfg st' devices).2 ∧
    (monitor_handle_wake ex cfg st devices).2 =
      (monitor_handle_wake ex cfg st' devices).2 ∧
    (monitor_handle_sleep ex cfg st devices).2.length = devices.length ∧
    (∀ d ∈ devices,
      (serialOf d, run_unique_scripts ex (get_matching_configs d cfg) "sleep") ∈
        (monitor_handle_sleep ex cfg st devices).2 ∧
      (serialOf d, run_unique_scripts ex (get_matching_configs d cfg) "wake") ∈
        (monitor_handle_wake ex cfg st devices).2) := by
  refine ⟨rfl, rfl, rfl, rfl, by simp [monitor_handle_sleep], ?_⟩
  intro d hd
  exact ⟨List.mem_map_of_mem _ hd, List.mem_map_of_mem _ hd⟩

theorem claim_C8_witness :
    (monitor_handle_sleep (fun _ => ExecOutcome.exn "E") [] ⟨["A", "B"]⟩
      [[("serial", "C"), ("state", "device")]]).1 = ⟨["A", "B"]⟩ :=
  (claim_C8_sleep_wake_frame (fun _ => ExecOutcome.exn "E") [] ⟨["A", "B"]⟩
    ⟨[]⟩ [[("serial", "C"), ("state", "device")]]).1

/-- C10: stopping an already-stopped bridge is a no-op that changes no
state and raises nothing, stop∘stop equals stop on every bridge state,
and after a stop the running flag is clear. -/
theorem claim_C10_stop_idempotent (st : SMState) :
    (st.running = false → sleep_monitor_stop st = st) ∧
    sleep_monitor_stop (sleep_monitor_stop st) = sleep_monitor_stop st ∧
    (sleep_monitor_stop st).running = false := by
  obtain ⟨r, pf, pr, td, ar⟩ := st
  cases r <;> simp [sleep_monitor_stop]

theorem claim_C10_witness :
    sleep_monitor_stop (sleep_monitor_stop ⟨true, true, some 7, true, true⟩) =
      sleep_monitor_stop ⟨true, true, some 7, true, true⟩ :=
  (claim_C10_stop_idempotent ⟨true, true, some 7, true, true⟩).2.1

theorem handle_sleep_cb_never_raises (cb : CbOutcome) :
    ∃ logs, handle_sleep_cb cb = .ok logs ∧
      ∀ m, cb = .raises m → ("Error in sleep callback: " ++ m) ∈ logs := by
  cases cb with
  | ok =>
    refine ⟨["System going to sleep"], rfl, ?_⟩
    intro m hm
    cases hm
  | raises m =>
    refine ⟨["System going to sleep", "Error in sleep callback: " ++ m], rfl, ?_⟩
    intro m' hm'
    injection hm' with h
    subst h
    simp

theorem handle_wake_cb_never_raises (cb : CbOutcome) :
    ∃ logs, handle_wake_cb cb = .ok logs ∧
      ∀ m, cb = .raises m → ("Error in wake callback: " ++ m) ∈ logs := by
  cases cb with
  | ok =>
    refine ⟨["System waking up"], rfl, ?_⟩
    intro m hm
    cases hm
  | raises m =>
    refine ⟨["System waking up", "Error in wake callback: " ++ m], rfl, ?_⟩
    intro m' hm'
    injection hm' with h
    subst h
    simp

theorem check_events_once_spec (inp : PollInput) (st : PollState) :
    ∃ st', check_events_once inp st = .ok st' ∧
      st'.running = st.running ∧
      st'.sleepMarker = false ∧ st'.wakeMarker = false ∧
      (∃ t, st'.log = st.log ++ t) ∧
      ((st.sleepMarker || inp.sleepArrives) = true →
        ∀ m, inp.sleepCb = .raises m →
          ("Error in sleep callback: " ++ m) ∈ st'.log) ∧
      ((st.wakeMarker || inp.wakeArrives) = true →
        ∀ m, inp.wakeCb = .raises m →
          ("Error in wake callback: " ++ m) ∈ st'.log) := by
  obtain ⟨ls, hls, hls2⟩ := handle_sleep_cb_never_raises inp.sleepCb
  obtain ⟨lw, hlw, hlw2⟩ := handle_wake_cb_never_raises inp.wakeCb
  by_cases hsm : (st.sleepMarker || inp.sleepArrives) = true <;>
    by_cases hwm : (st.wakeMarker || inp.wakeArrives) = true
  · refine ⟨⟨st.running, false, false, st.log ++ ls ++ lw⟩,
      by simp [check_events_once, hls, hlw, hsm, hwm]; rfl,
      rfl, rfl, rfl, ⟨ls ++ lw, by simp⟩, ?_, ?_⟩
    · intro _ m hm
      simp [hls2 m hm]
    · intro _ m hm
      simp [hlw2 m hm]
  · refine ⟨⟨st.running, false, false, st.log ++ ls⟩,
      by simp [check_events_once, hls, hsm, hwm],
      rfl, rfl, rfl, ⟨ls, rfl⟩, ?_, ?_⟩
    · intro _ m hm
      simp [hls2 m hm]
    · intro h
      exact absurd h hwm
  · refine ⟨⟨st.running, false, false, st.log ++ lw⟩,
      by simp [check_events_once, hlw, hsm, hwm],
      rfl, rfl, rfl, ⟨lw, rfl⟩, ?_, ?_⟩
    · intro h
      exact absurd h hsm
    · intro _ m hm
      simp [hlw2 m hm]
  · refine ⟨⟨st.running, false, false, st.log⟩,
      by simp [check_events_once, hsm, hwm]; rfl,
      rfl, rfl, rfl, ⟨[], by simp⟩, ?_, ?_⟩
    · intro h
      exact absurd h hsm
    · intro h
      exact absurd h hwm

theorem check_for_events_ok (inputs : List PollInput) (st : PollState) :
    ∃ st', check_for_events inputs st = .ok st' ∧ st'.running = st.running ∧
      ∃ t, st'.log = st.log ++ t := by
  induction inputs generalizing st with
  | nil => exact ⟨st, rfl, rfl, ⟨[], by simp⟩⟩
  | cons inp rest ih =>
    by_cases hrun : st.running = true
    · obtain ⟨st1, hstep, hrun1, _, _, ⟨t1, hlog1⟩, _, _⟩ :=
        check_events_once_spec inp st
      obtain ⟨st2, hloop, hrun2, ⟨t2, hlog2⟩⟩ := ih st1
      refine ⟨st2, ?_, by rw [hrun2, hrun1],
        ⟨t1 ++ t2, by rw [hlog2, hlog1, List.append_assoc]⟩⟩
      simp only [check_for_events, hrun, if_true, hstep]
      simpa using hloop
    · exact ⟨st, by simp [check_for_events, hrun], rfl, ⟨[], by simp⟩⟩

/-- C7: a raising sleep/wake callback never terminates the bridge poll
loop — every finite run of the loop returns normally with the running
flag intact and the log only extended; an iteration whose callback
raises still succeeds, logs the callback error and clears the marker;
and while the running flag is set the loop always proceeds from one
iteration to the next. -/
theorem claim_C7_callback_isolation (inputs : List PollInput) (st : PollState)
    (inp : PollInput) (rest : List PollInput) (st0 : PollState) (m : String) :
    (∃ st', check_for_events inputs st = .ok st' ∧ st'.running = st.running ∧
      ∃ t, st'.log = st.log ++ t) ∧
    ((st0.sleepMarker || inp.sleepArrives) = true → inp.sleepCb = .raises m →
      ∃ st1, check_events_once inp st0 = .ok st1 ∧
        ("Error in sleep callback: " ++ m) ∈ st1.log ∧
        st1.sleepMarker = false ∧ st1.running = st0.running) ∧
    ((st0.wakeMarker || inp.wakeArrives) = true → inp.wakeCb = .raises m →
      ∃ st1, check_events_once inp st0 = .ok st1 ∧
        ("Error in wake callback: " ++ m) ∈ st1.log ∧
        st1.wakeMarker = false ∧ st1.running = st0.running) ∧
    (st0.running = true →
      check_for_events (inp :: rest) st0 =
        (check_events_once inp st0).bind (check_for_events rest)) := by
  refine ⟨check_for_events_ok inputs st, ?_, ?_, ?_⟩
  · intro hc hm
    obtain ⟨st1, hstep, hrun1, hsm1, _, _, herrS, _⟩ :=
      check_events_once_spec inp st0
    exact ⟨st1, hstep, herrS hc m hm, hsm1, hrun1⟩
  · intro hc hm
    obtain ⟨st1, hstep, hrun1, _, hwm1, _, _, herrW⟩ :=
      check_events_once_spec inp st0
    exact ⟨st1, hstep, herrW hc m hm, hwm1, hrun1⟩
  · intro hrun
    simp [check_for_events, hrun]
    rfl

theorem claim_C7_witness :
    ∃ st', check_for_events
        [⟨true, false, CbOutcome.raises "boom", CbOutcome.ok⟩]
        ⟨true, false, false, []⟩ = .ok st' ∧
      st'.running = true ∧ ∃ t, st'.log = [] ++ t :=
  (claim_C7_callback_isolation
    [⟨true, false, CbOutcome.raises "boom", CbOutcome.ok⟩]
    ⟨true, false, false, []⟩
    ⟨true, false, CbOutcome.raises "boom", CbOutcome.ok⟩ []
    ⟨true, false, false, []⟩ "boom").1

theorem dictGet_dictSet (d : Dict) (k k' v : String) :
    dictGet (dictSet d k v) k' = if k' = k then some v else dictGet d k' := by
  induction d with
  | nil => simp [dictSet, dictGet]
  | cons ab rest ih =>
    obtain ⟨a, b⟩ := ab
    rw [dictSet]
    by_cases hak : a = k
    · rw [if_pos hak, ih]
      by_cases hk' : k' = k
      · rw [if_pos hk', if_pos hk']
      · have hk'a : ¬ k' = a := fun h => hk' (h.trans hak)
        rw [if_neg hk', if_neg hk', dictGet, if_neg hk'a]
    · rw [if_neg hak, dictGet]
      by_cases hk'a : k' = a
      · have hk'k : ¬ k' = k := fun h => hak (hk'a.symm.trans h)
        rw [if_pos hk'a, if_neg hk'k, dictGet, if_pos hk'a]
      · rw [if_neg hk'a, ih]
        by_cases hk' : k' = k
        · rw [if_pos hk', if_pos hk']
        · rw [if_neg hk', if_neg hk', dictGet, if_neg hk'a]

theorem applyExtras_cons (t : String) (rest : List String) (d : Dict) :
    applyExtras (t :: rest) d =
      applyExtras rest
        (if hasColon t then dictSet d (splitColon t).1 (splitColon t).2 else d) :=
  rfl

theorem applyExtras_get_preserve (extras : List String) (d : Dict) (k : String)
    (h : ∀ t ∈ extras, hasColon t = true → (splitColon t).1 ≠ k) :
    dictGet (applyExtras extras d) k = dictGet d k := by
  induction extras generalizing d with
  | nil => rfl
  | cons t rest ih =>
    rw [applyExtras_cons]
    by_cases hc : hasColon t = true
    · rw [if_pos hc, ih _ (fun t' ht' => h t' (List.mem_cons_of_mem t ht')),
        dictGet_dictSet, if_neg ?_]
      intro hk
      exact h t (List.mem_cons_self t rest) hc hk.symm
    · rw [if_neg hc]
      exact ih _ (fun t' ht' => h t' (List.mem_cons_of_mem t ht'))

theorem applyExtras_get_isSome (extras : List String) (d : Dict) (k : String) :
    (dictGet (applyExtras extras d) k).isSome = true ↔
      ((dictGet d k).isSome = true ∨
        ∃ t ∈ extras, hasColon t = true ∧ (splitColon t).1 = k) := by
  induction extras generalizing d with
  | nil => simp [applyExtras]
  | cons t rest ih =>
    rw [applyExtras_cons]
    by_cases hc : hasColon t = true
    · rw [if_pos hc, ih]
      rw [dictGet_dictSet]
      by_cases hk : k = (splitColon t).1
      · simp only [if_pos hk]
        constructor
        · intro _
          right
          exact ⟨t, List.mem_cons_self t rest, hc, hk.symm⟩
        · intro _
          left
          simp
      · simp only [if_neg hk]
        constructor
        · rintro (h1 | ⟨t', ht', hct', hkt'⟩)
          · exact Or.inl h1
          · exact Or.inr ⟨t', List.mem_cons_of_mem t ht', hct', hkt'⟩
        · rintro (h1 | ⟨t', ht', hct', hkt'⟩)
          · exact Or.inl h1
          · rcases List.mem_cons.mp ht' with rfl | ht''
            · exact absurd hkt'.symm hk
            · exact Or.inr ⟨t', ht'', hct', hkt'⟩
    · rw [if_neg hc, ih]
      constructor
      · rintro (h1 | ⟨t', ht', hct', hkt'⟩)
        · exact Or.inl h1
        · exact Or.inr ⟨t', List.mem_cons_of_mem t ht', hct', hkt'⟩
      · rintro (h1 | ⟨t', ht', hct', hkt'⟩)
        · exact Or.inl h1
        · rcases List.mem_cons.mp ht' with rfl | ht''
          · exact absurd hct' hc
          · exact Or.inr ⟨t', ht'', hct', hkt'⟩

theorem applyExtras_get_value (extras : List String) (k v : String) :
    ∀ d : Dict,
      (∃ t ∈ extras, hasColon t = true ∧ (splitColon t).1 = k) →
      (∀ t ∈ extras, hasColon t = true → (splitColon t).1 = k →
        (splitColon t).2 = v) →
      dictGet (applyExtras extras d) k = some v := by
  induction extras with
  | nil =>
    intro d hex hval
    exact absurd hex (by simp)
  | cons t rest ih =>
    intro d hex hval
    rw [applyExtras_cons]
    by_cases hc : hasColon t = true
    · rw [if_pos hc]
      by_cases hk : (splitColon t).1 = k
      · have hv : (splitColon t).2 = v := hval t (List.mem_cons_self t rest) hc hk
        by_cases hrest : ∃ t' ∈ rest, hasColon t' = true ∧ (splitColon t').1 = k
        · exact ih _ hrest
            (fun t' ht' => hval t' (List.mem_cons_of_mem t ht'))
        · push_neg at hrest
          rw [applyExtras_get_preserve rest _ k
            (fun t' ht' hct' hkt' => (hrest t' ht' hct') hkt'),
            dictGet_dictSet, if_pos hk.symm, hv]
      · rcases hex with ⟨t', ht', hct', hkt'⟩
        rcases List.mem_cons.mp ht' with rfl | ht''
        · exact absurd hkt' hk
        · exact ih _ ⟨t', ht'', hct', hkt'⟩
            (fun t'' ht'' => hval t'' (List.mem_cons_of_mem t ht''))
    · rw [if_neg hc]
      rcases hex with ⟨t', ht', hct', hkt'⟩
      rcases List.mem_cons.mp ht' with rfl | ht''
      · exact absurd hct' hc
      · exact ih _ ⟨t', ht'', hct', hkt'⟩
          (fun t'' ht'' => hval t'' (List.mem_cons_of_mem t ht''))

theorem parse_line_cases (l : String) :
    (∃ d, parse_device_line l = .ok d) ∨
      parse_device_line l = .error "IndexError: list index out of range" := by
  rcases htok : tokensOf l with _ | ⟨p0, _ | ⟨p1, rest⟩⟩ <;>
    simp [parse_device_line, htok]

theorem parse_lines_error (ls : List String) (l : String) (hl : l ∈ ls)
    (he : parse_device_line l = .error "IndexError: list index out of range") :
    parse_lines ls = .error "IndexError: list index out of range" := by
  induction ls with
  | nil => cases hl
  | cons a rest ih =>
    rcases parse_line_cases a with ⟨d, hd⟩ | ha
    · rcases List.mem_cons.mp hl with rfl | h
      · rw [hd] at he
        cases he
      · rw [parse_lines, hd, ih h]
        rfl
    · rw [parse_lines, ha]
      rfl

theorem parse_lines_total (ls : List String)
    (h : ∀ l ∈ ls, 2 ≤ (tokensOf l).length) :
    ∃ ds, parse_lines ls = .ok ds ∧
      ∀ d ∈ ds, ∃ l ∈ ls, parse_device_line l = .ok d := by
  induction ls with
  | nil => exact ⟨[], rfl, by simp⟩
  | cons a rest ih =>
    have ha := h a (List.mem_cons_self a rest)
    rcases htok : tokensOf a with _ | ⟨p0, _ | ⟨p1, r⟩⟩
    · rw [htok] at ha
      simp at ha
    · rw [htok] at ha
      simp at ha
    · obtain ⟨ds, hds, hmem⟩ := ih (fun l hl => h l (List.mem_cons_of_mem a hl))
      refine ⟨applyExtras r [("serial", p0), ("state", p1)] :: ds, ?_, ?_⟩
      · rw [parse_lines, show parse_device_line a =
          .ok (applyExtras r [("serial", p0), ("state", p1)]) from by
            simp [parse_device_line, htok], hds]
        rfl
      · intro d hd
        rcases List.mem_cons.mp hd with rfl | hd'
        · exact ⟨a, List.mem_cons_self a rest, by simp [parse_device_line, htok]⟩
        · obtain ⟨l, hl, hpl⟩ := hmem d hd'
          exact ⟨l, List.mem_cons_of_mem a hl, hpl⟩

/-- C9: the enumerator's parser is total only under the precondition
that every non-blank post-header line has at least two tokens — a
single-token line makes `get_devices` fail with an IndexError that the
`except subprocess.SubprocessError` clause does not catch; under the
precondition every returned record comes from one line and holds
exactly `serial`, `state` and the colon-containing extra tokens, each
split at its first colon. -/
theorem claim_C9_parser_totality (out line p0 p1 : String) (rest : List String) :
    (line ∈ deviceLines out → tokensOf line = [p0] →
      get_devices (.completed 0 out) =
        .error "IndexError: list index out of range") ∧
    ((∀ l ∈ deviceLines out, 2 ≤ (tokensOf l).length) →
      ∃ ds, get_devices (.completed 0 out) = .ok ds ∧
        ∀ d ∈ ds, ∃ l ∈ deviceLines out, parse_device_line l = .ok d) ∧
    (tokensOf line = p0 :: p1 :: rest →
      ∃ d, parse_device_line line = .ok d ∧
        (∀ k, (dictGet d k).isSome = true ↔
          (k = "serial" ∨ k = "state" ∨
            ∃ t ∈ rest, hasColon t = true ∧ (splitColon t).1 = k)) ∧
        ((∀ t ∈ rest, hasColon t = true → (splitColon t).1 ≠ "serial") →
          dictGet d "serial" = some p0) ∧
        ((∀ t ∈ rest, hasColon t = true → (splitColon t).1 ≠ "state") →
          dictGet d "state" = some p1) ∧
        (∀ k v, (∃ t ∈ rest, hasColon t = true ∧ (splitColon t).1 = k) →
          (∀ t ∈ rest, hasColon t = true → (splitColon t).1 = k →
            (splitColon t).2 = v) →
          dictGet d k = some v)) := by
  have hgd : get_devices (.completed 0 out) = parse_lines (deviceLines out) := by
    simp [get_devices]
  refine ⟨?_, ?_, ?_⟩
  · intro hline htok
    rw [hgd]
    exact parse_lines_error _ line hline (by simp [parse_device_line, htok])
  · intro hpre
    rw [hgd]
    exact parse_lines_total _ hpre
  · intro htok
    refine ⟨applyExtras rest [("serial", p0), ("state", p1)],
      by simp [parse_device_line, htok], ?_, ?_, ?_, ?_⟩
    · intro k
      rw [applyExtras_get_isSome]
      constructor
      · rintro (h1 | h2)
        · by_cases hk1 : k = "serial"
          · exact Or.inl hk1
          · by_cases hk2 : k = "state"
            · exact Or.inr (Or.inl hk2)
            · rw [dictGet, if_neg hk1, dictGet, if_neg hk2, dictGet] at h1
              cases h1
        · exact Or.inr (Or.inr h2)
      · rintro (rfl | rfl | h2)
        · left
          simp [dictGet]
        · left
          simp [dictGet]
        · exact Or.inr h2
    · intro hfree
      rw [applyExtras_get_preserve _ _ _ hfree]
      simp [dictGet]
    · intro hfree
      rw [applyExtras_get_preserve _ _ _ hfree]
      simp [dictGet]
    · intro k v hex hval
      exact applyExtras_get_value rest k v _ hex hval

theorem claim_C9_witness :
    get_devices (.completed 0 "List of devices attached\nS1\n") =
      .error "IndexError: list index out of range" :=
  (claim_C9_parser_totality "List of devices attached\nS1\n" "S1" "S1" "" []).1
    (by decide) (by decide)

end ADBStatus
